import Mathlib

/-!
Shallow embedding of `src/libsrc/OverlapUtil.cpp` (class `dcmqi::OverlapUtil`).

Machine `Float64` coordinates are embedded as exact rationals (`ℚ`); the
claims settled here do not depend on rounding (where this matters it is noted
at the theorem).  `OFCondition` return codes are embedded as `Except Err`,
out-parameters as explicit arguments/results, and the memoizing member fields
of the class as an explicit state record threaded through the functions.
-/

set_option autoImplicit false

namespace OverlapUtil

/-- Error codes returned by the source: `EC_TagNotFound`, `EC_InvalidValue`,
`EC_IllegalParameter`, `EC_IllegalCall`, `SG_EC_FramesNotParallel`.  The extra
constructor `outOfBoundsRead` marks the one place where the source performs an
unchecked `std::vector` element access that can be out of bounds
(`m_framePositions[0]` in `groupFramesByLogicalPosition`, line 745); the C++
there is undefined behavior, which the embedding surfaces as this value. -/
inductive Err where
  | tagNotFound
  | invalidValue
  | illegalParameter
  | illegalCall
  | framesNotParallel
  | outOfBoundsRead
  deriving DecidableEq

/-- External segmentation/frame store (`DcmSegmentation` together with its
functional groups), reduced to the queries `OverlapUtil` performs on it.
`segmentRef f = none` means frame `f` carries no Segmentation functional group
(the source silently skips such frames); `segmentRef f = some s` is the value
of Referenced Segment Number after the dcmtk getter ran, with `0` covering
both a stored zero and a failed read (dcmtk leaves the out-parameter at its
initial `0` on failure). -/
structure SegSource where
  numberOfFrames : Nat
  numberOfSegments : Nat
  imageOrientation : Option (List ℚ)
  orientationPerFrame : Bool
  positionAt : Nat → Option (List ℚ)
  sliceThickness : Option ℚ
  segmentRef : Nat → Option Nat
  frameData : Nat → Option (List Nat)
  rows : Nat
  cols : Nat

/-- `FramePositionAndNumber`: a physical frame index together with its Image
Position (Patient) coordinates (source struct of the same name). -/
structure FramePositionAndNumber where
  m_position : List ℚ
  m_frameNumber : Nat
  deriving DecidableEq

/-- Coordinate access `fp.m_position[c]` (the source indexes a 3-vector). -/
def coordOf (fp : FramePositionAndNumber) (c : Nat) : ℚ :=
  fp.m_position.getD c 0

/-- Memoized member fields of `OverlapUtil` that the embedded functions read
and write (`m_imageOrientation`, `m_framePositions`,
`m_logicalFramePositions`, `m_segmentsByPosition`). -/
structure OUState where
  m_imageOrientation : List ℚ
  m_framePositions : List FramePositionAndNumber
  m_logicalFramePositions : List (List Nat)
  m_segmentsByPosition : List (List (Nat × Nat))
  deriving DecidableEq

/-- State of a freshly constructed `OverlapUtil` (all caches empty). -/
def emptyState : OUState := ⟨[], [], [], []⟩

/-- `OverlapUtil::ensureFramesAreParallel` (lines 150-191): fails with
`SG_EC_FramesNotParallel` when Image Orientation Patient is per-frame, with
`EC_TagNotFound` when the Plane Orientation FG is absent, and otherwise
returns the six shared orientation values. -/
def ensureFramesAreParallel (src : SegSource) : Except Err (List ℚ) :=
  match src.imageOrientation with
  | some v => if src.orientationPerFrame then .error .framesNotParallel else .ok v
  | none => .error .tagNotFound

/-- `OverlapUtil::identifyChangingCoordinate` (lines 805-828): absolute cross
product of the two orientation triples, then the strictly dominating axis
index, or `3` when no axis strictly dominates. -/
def identifyChangingCoordinate (io : List ℚ) : Nat :=
  let g : Nat → ℚ := fun i => io.getD i 0
  let c0 : ℚ := |g 1 * g 5 - g 2 * g 4|
  let c1 : ℚ := |g 2 * g 3 - g 0 * g 5|
  let c2 : ℚ := |g 0 * g 4 - g 1 * g 3|
  if c0 > c1 ∧ c0 > c2 then 0
  else if c1 > c0 ∧ c1 > c2 then 1
  else if c2 > c0 ∧ c2 > c1 then 2
  else 3

/-- Loop body of `OverlapUtil::collectPhysicalFramePositions` (lines 668-715):
frame `i` with `remaining` frames still to visit; a frame without an Image
Position Patient aborts with `EC_TagNotFound`. -/
def collectFrom (src : SegSource) : Nat → Nat → Except Err (List FramePositionAndNumber)
  | _, 0 => .ok []
  | i, n + 1 =>
    match src.positionAt i with
    | some p =>
      match collectFrom src (i + 1) n with
      | .ok rest => .ok (⟨p, i⟩ :: rest)
      | .error e => .error e
    | none => .error .tagNotFound

/-- `OverlapUtil::collectPhysicalFramePositions` over all frames. -/
def collectPhysicalFramePositions (src : SegSource) : Except Err (List FramePositionAndNumber) :=
  collectFrom src 0 src.numberOfFrames

/-- Ordered insertion by the dominant coordinate.  The source sorts with
`std::sort` and the comparator `ComparePositions` (coordinate `c` of one frame
less than coordinate `c` of the other); `std::sort` leaves the relative order
of equal keys unspecified, so the embedding fixes insertion sort, which agrees
with every correct comparison sort whenever the keys are pairwise distinct. -/
def insertByCoord (c : Nat) (x : FramePositionAndNumber) :
    List FramePositionAndNumber → List FramePositionAndNumber
  | [] => [x]
  | y :: ys => if coordOf x c < coordOf y c then x :: y :: ys else y :: insertByCoord c x ys

/-- Sorting `m_framePositions` by the dominant coordinate (line 742). -/
def sortByCoord (c : Nat) : List FramePositionAndNumber → List FramePositionAndNumber
  | [] => []
  | x :: xs => insertByCoord c x (sortByCoord c xs)

/-- Clustering loop of `OverlapUtil::groupFramesByLogicalPosition` (lines
747-779): walk the sorted frames; when the dominant-coordinate distance to the
previous sorted frame is strictly below the tolerance, append the frame number
to the group at the back, otherwise append a fresh group. -/
def clusterGo (tol : ℚ) (c : Nat) :
    List FramePositionAndNumber → FramePositionAndNumber → List Nat → List (List Nat) →
    List (List Nat)
  | [], _, cur, acc => acc ++ [cur]
  | y :: rest, prev, cur, acc =>
    if |coordOf y c - coordOf prev c| < tol then
      clusterGo tol c rest y (cur ++ [y.m_frameNumber]) acc
    else
      clusterGo tol c rest y [y.m_frameNumber] (acc ++ [cur])

/-- Prepend a frame number to the first group (helper used to state the
recursive characterization of `clusterGo`). -/
def consHead (x : Nat) : List (List Nat) → List (List Nat)
  | [] => [[x]]
  | g :: gs => (x :: g) :: gs

/-- `OverlapUtil::groupFramesByLogicalPosition` (lines 717-803): needs the
slice thickness (`EC_TagNotFound` otherwise) and a strictly dominating axis
(`EC_InvalidValue` otherwise); sorts the collected frame positions and
clusters them with tolerance `sliceThickness * 0.01`.  The C++ literal `0.01`
denotes its IEEE-754 binary64 value, which is not 1/100 but exactly the
rational `5764607523034235 / 2^59` used below.  The source then reads
`m_framePositions[0]` without checking emptiness (line 745); on an empty
vector that access is out of bounds, surfaced here as `Err.outOfBoundsRead`. -/
def groupFramesByLogicalPosition (src : SegSource) (orient : List ℚ)
    (fps : List FramePositionAndNumber) : Except Err (List (List Nat)) :=
  match src.sliceThickness with
  | none => .error .tagNotFound
  | some th =>
    if identifyChangingCoordinate orient < 3 then
      match sortByCoord (identifyChangingCoordinate orient) fps with
      | [] => .error .outOfBoundsRead
      | x :: rest =>
        .ok (clusterGo (th * (5764607523034235 / 576460752303423488))
          (identifyChangingCoordinate orient) rest x [x.m_frameNumber] [])
    else .error .invalidValue

/-- `OverlapUtil::groupFramesByPosition` (lines 193-243): returns at once when
`m_framePositions` is already populated; otherwise checks parallel frames,
collects the physical positions and clusters them.  On any error the partial
caches `m_framePositions` and `m_logicalFramePositions` are cleared
(lines 237-241). -/
def groupFramesByPosition (src : SegSource) (st : OUState) : Except Err Unit × OUState :=
  if st.m_framePositions ≠ [] then (.ok (), st)
  else
    match ensureFramesAreParallel src with
    | .error e => (.error e, st)
    | .ok orient =>
      match collectPhysicalFramePositions src with
      | .error e =>
        (.error e, { st with m_imageOrientation := orient, m_framePositions := [],
                             m_logicalFramePositions := [] })
      | .ok fps =>
        match groupFramesByLogicalPosition src orient fps with
        | .error e =>
          (.error e, { st with m_imageOrientation := orient, m_framePositions := [],
                               m_logicalFramePositions := [] })
        | .ok lfp =>
          (.ok (), { st with m_imageOrientation := orient, m_framePositions := fps,
                             m_logicalFramePositions := lfp })

/-- `OverlapUtil::getFramesByPosition` (lines 81-93): recompute the grouping
when the logical-positions cache is empty, then hand out the cache. -/
def getFramesByPosition (src : SegSource) (st : OUState) :
    Except Err (List (List Nat)) × OUState :=
  match (if st.m_logicalFramePositions = [] then groupFramesByPosition src st
         else (.ok (), st)) with
  | (.ok _, st1) => (.ok st1.m_logicalFramePositions, st1)
  | (.error e, st1) => (.error e, st1)

/-- Insertion into the per-position `std::set<SegNumAndFrameNum>`.  Modelled
from the spec for the comparator: the struct and its ordering live in the
header (not among these sources); the spec states the pairs are
"deduplicated and ordered by (segment number, frame index)". -/
def segInsert (e : Nat × Nat) : List (Nat × Nat) → List (Nat × Nat)
  | [] => [e]
  | x :: xs =>
    if e = x then x :: xs
    else if e.1 < x.1 ∨ (e.1 = x.1 ∧ e.2 < x.2) then e :: x :: xs
    else x :: segInsert e xs

/-- Inner frame loop of `OverlapUtil::getSegmentsByPosition` (lines 272-313)
for one logical position: visit the position's frames, skip frames without a
Segmentation FG, abort with `EC_InvalidValue` on a zero or out-of-range
Referenced Segment Number, and otherwise insert `(segment, frame)` into the
position's set.  Returns the set built so far together with the error, since
the source keeps the partial set on abort. -/
def segsForPositionGo (src : SegSource) (numSegments : Nat) :
    List Nat → List (Nat × Nat) → List (Nat × Nat) × Option Err
  | [], acc => (acc, none)
  | f :: fs, acc =>
    match src.segmentRef f with
    | none => segsForPositionGo src numSegments fs acc
    | some s =>
      if s = 0 then (acc, some .invalidValue)
      else if numSegments < s then (acc, some .invalidValue)
      else segsForPositionGo src numSegments fs (segInsert (s, f) acc)

/-- Outer position loop of `OverlapUtil::getSegmentsByPosition` (lines
267-318): `m_segmentsByPosition` is resized to the number of logical
positions and filled position by position; an error breaks the loop, leaving
the later positions as the empty sets the resize produced. -/
def fillSegsByPos (src : SegSource) (numSegments : Nat) :
    List (List Nat) → List (List (Nat × Nat)) × Option Err
  | [] => ([], none)
  | p :: ps =>
    match segsForPositionGo src numSegments p [] with
    | (s, some e) => (s :: ps.map (fun _ => ([] : List (Nat × Nat))), some e)
    | (s, none) =>
      match fillSegsByPos src numSegments ps with
      | (rest, e2) => (s :: rest, e2)

/-- `OverlapUtil::getSegmentsByPosition` (lines 245-328).  `result` is the
caller's out-parameter: the source assigns it only on the cached fast path
(line 250) and otherwise leaves it untouched.  On the compute path the table
is stored into `m_segmentsByPosition` before the error check, and the member
is not cleared when the loop aborted, so a failing call leaves a non-empty
partial cache behind. -/
def getSegmentsByPosition (src : SegSource) (st : OUState)
    (result : List (List (Nat × Nat))) :
    Except Err Unit × List (List (Nat × Nat)) × OUState :=
  if st.m_segmentsByPosition ≠ [] then (.ok (), st.m_segmentsByPosition, st)
  else
    match groupFramesByPosition src st with
    | (.error e, st1) => (.error e, result, st1)
    | (.ok _, st1) =>
      match (if st1.m_logicalFramePositions = [] then getFramesByPosition src st1
             else (.ok st1.m_logicalFramePositions, st1)) with
      | (.error e, st2) => (.error e, result, st2)
      | (.ok _, st2) =>
        match fillSegsByPos src src.numberOfSegments st2.m_logicalFramePositions with
        | (table, some e) => (.error e, result, { st2 with m_segmentsByPosition := table })
        | (table, none) => (.ok (), result, { st2 with m_segmentsByPosition := table })

/-- The `Sint8` overlap matrix, embedded as a total function on indices; the
cells the source allocates are those below `numberOfSegments`. -/
def Mat : Type := Nat → Nat → Int

/-- Matrix of `buildOverlapMatrix` lines 482-491: every cell `-1` (not checked
yet), diagonal `0`. -/
def initMatrix : Mat := fun i j => if i = j then 0 else -1

/-- The symmetric pair of writes at lines 532-533: both `(a,b)` and `(b,a)`
receive `v`. -/
def writeSym (m : Mat) (a b : Nat) (v : Int) : Mat :=
  fun i j => if (i = a ∧ j = b) ∨ (i = b ∧ j = a) then v else m i j

/-- Modelled from the spec: `DcmSegUtils::unpackBinaryFrame` is an external
dcmtk helper (not among these sources).  The spec says the packed mask is
expanded to "one value per pixel (one byte per pixel, 0/nonzero)"; dcmtk
produces bit `n` of the packed data (least significant bit first), one pixel
per byte, `rows*cols` pixels, which is what this definition computes. -/
def unpackBinaryFrame (data : List Nat) (rows cols : Nat) : List Nat :=
  (List.range (rows * cols)).map (fun n => (data.getD (n / 8) 0 >>> (n % 8)) &&& 1)

/-- `OverlapUtil::checkFramesOverlapBinary` (lines 594-627): equal-length
packed masks are compared byte by byte with bitwise AND; a length mismatch is
`EC_IllegalCall` (the spec's `InconsistentFrameData`). -/
def checkFramesOverlapBinary (f1Data f2Data : List Nat) : Except Err Bool :=
  if f1Data.length ≠ f2Data.length then .error .illegalCall
  else .ok ((f1Data.zip f2Data).any (fun p => p.1 &&& p.2 != 0))

/-- `OverlapUtil::checkFramesOverlapUnpacked` (lines 629-666): unpack both
masks, check equal lengths, then flag overlap at the first index where the
first value is nonzero and equal to the second. -/
def checkFramesOverlapUnpacked (f1Data f2Data : List Nat) (rows cols : Nat) :
    Except Err Bool :=
  if (unpackBinaryFrame f1Data rows cols).length ≠ (unpackBinaryFrame f2Data rows cols).length
  then .error .illegalCall
  else
    .ok (((unpackBinaryFrame f1Data rows cols).zip (unpackBinaryFrame f2Data rows cols)).any
      (fun p => p.1 != 0 && p.1 == p.2))

/-- `OverlapUtil::checkFramesOverlap` (lines 560-592): identical frame indices
never overlap; otherwise fetch both frames' pixel data (inaccessible data is
`EC_IllegalCall`, checked inside the callees in the source) and dispatch on
`rows * cols % 8`. -/
def checkFramesOverlap (src : SegSource) (f1 f2 : Nat) : Except Err Bool :=
  if f1 = f2 then .ok false
  else
    match src.frameData f1, src.frameData f2 with
    | some d1, some d2 =>
      if src.rows * src.cols % 8 ≠ 0 then
        checkFramesOverlapUnpacked d1 d2 src.rows src.cols
      else checkFramesOverlapBinary d1 d2
    | _, _ => .error .illegalCall

/-- The overlap flag `buildOverlapMatrix` actually uses at line 529: the
source calls `checkFramesOverlap(f1, f2, overlap)` and discards the returned
`OFCondition`; the out-parameter was initialized to `OFFalse` and stays false
on every error path, so an error is indistinguishable from "no overlap". -/
def overlapResult (src : SegSource) (f1 f2 : Nat) : Bool :=
  match checkFramesOverlap src f1 f2 with
  | .ok b => b
  | .error _ => false

/-- Body of the pair comparison in `buildOverlapMatrix` (lines 513-534),
reached when the reverse-order skip did not fire: distinct segment numbers
whose cell is not yet `1` get compared and the result written symmetrically. -/
def processPair (src : SegSource) (m : Mat) (a b : Nat × Nat) : Mat :=
  if a.1 ≠ b.1 then
    if m (a.1 - 1) (b.1 - 1) = 1 then m
    else writeSym m (a.1 - 1) (b.1 - 1) (if overlapResult src a.2 b.2 then 1 else 0)
  else m

/-- Inner `it2` loop of `buildOverlapMatrix` (lines 505-535) over one
position's set, threading the global counter `index2` (incremented per
element, never reset) and skipping while `index2 <= index1`. -/
def bomInner (src : SegSource) (a : Nat × Nat) :
    List (Nat × Nat) → Mat → Nat → Nat → Mat × Nat
  | [], m, _, i2 => (m, i2)
  | b :: bs, m, i1, i2 =>
    if i2 + 1 ≤ i1 then bomInner src a bs m i1 (i2 + 1)
    else bomInner src a bs (processPair src m a b) i1 (i2 + 1)

/-- Outer `it` loop of `buildOverlapMatrix` (lines 500-536) over one
position's set `s`, threading the global counters `index1` and `index2`. -/
def bomMiddle (src : SegSource) (s : List (Nat × Nat)) :
    List (Nat × Nat) → Mat → Nat → Nat → Mat × Nat × Nat
  | [], m, i1, i2 => (m, i1, i2)
  | a :: as, m, i1, i2 =>
    bomMiddle src s as (bomInner src a s m (i1 + 1) i2).1 (i1 + 1)
      (bomInner src a s m (i1 + 1) i2).2

/-- Position loop of `buildOverlapMatrix` (lines 496-537). -/
def bomOuter (src : SegSource) :
    List (List (Nat × Nat)) → Mat → Nat → Nat → Mat
  | [], m, _, _ => m
  | p :: ps, m, i1, i2 =>
    bomOuter src ps (bomMiddle src p p m i1 i2).1 (bomMiddle src p p m i1 i2).2.1
      (bomMiddle src p p m i1 i2).2.2

/-- Finalization pass of `buildOverlapMatrix` (lines 540-549): every cell
still `-1` becomes `0` (segments that never met cannot overlap). -/
def finalizeMatrix (m : Mat) : Mat :=
  fun i j => if m i j = -1 then 0 else m i j

/-- The matrix `OverlapUtil::buildOverlapMatrix` (lines 478-558) computes from
the segments-by-position table. -/
def buildOverlapMatrixFn (src : SegSource) (sbp : List (List (Nat × Nat))) : Mat :=
  finalizeMatrix (bomOuter src sbp initMatrix 0 0)

/-- `OverlapUtil::buildOverlapMatrix` with its return code: the source ends
with `return EC_Normal` unconditionally (line 557) — every error raised while
comparing frames was already swallowed at line 529. -/
def buildOverlapMatrix (src : SegSource) (sbp : List (List (Nat × Nat))) :
    Except Err Mat :=
  .ok (buildOverlapMatrixFn src sbp)

/-- `m_segmentOverlapMatrix[i][(*it)-1] == 1` check of line 386: does segment
index `i` overlap some member of group `g`? -/
def segOverlapsGroup (m : Mat) (i : Nat) (g : List Nat) : Bool :=
  g.any (fun s => m i (s - 1) == 1)

/-- Group loop of `OverlapUtil::getNonOverlappingSegments` (lines 378-398) for
segment index `i`, with the `overlaps` flag threaded exactly as in the source:
it is declared once per segment and never reset between groups, so once a
group with an overlapping member has been scanned the flag stays `OFTrue` for
all later groups. -/
def assignLoop (m : Mat) (i : Nat) :
    List (List Nat) → Bool → List (List Nat) × Bool
  | [], ov => ([], ov)
  | g :: gs, ov =>
    if ov || segOverlapsGroup m i g then
      match assignLoop m i gs (ov || segOverlapsGroup m i g) with
      | (gs2, ov2) => (g :: gs2, ov2)
    else ((g ++ [i + 1]) :: gs, false)

/-- One iteration of the segment loop (lines 374-405): run the group loop and
append a new singleton group when the flag ended up `OFTrue`. -/
def addSegment (m : Mat) (i : Nat) (gs : List (List Nat)) : List (List Nat) :=
  match assignLoop m i gs false with
  | (gs2, true) => gs2 ++ [[i + 1]]
  | (gs2, false) => gs2

/-- Grouping step of `OverlapUtil::getNonOverlappingSegments` (lines 354-423),
as a function of the computed overlap matrix and the segment count: start with
one empty group (line 373) and place each segment `1..N` in turn. -/
def getNonOverlappingSegments (m : Mat) (numSegments : Nat) : List (List Nat) :=
  (List.range numSegments).foldl (fun gs i => addSegment m i gs) [[]]

/-- First-fit grouping following the spec's words (section 4.4): "scan
existing groups in creation order; assign s to the first group containing no
segment that has Overlap with s in the matrix; if no such group exists, append
a new group containing only s".  Reference definition for comparison with the
source's `getNonOverlappingSegments`. -/
def firstFitInsert (m : Mat) (i : Nat) : List (List Nat) → List (List Nat)
  | [] => [[i + 1]]
  | g :: gs => if segOverlapsGroup m i g then g :: firstFitInsert m i gs
               else (g ++ [i + 1]) :: gs

/-- First-fit grouping over all segments, starting from one empty group. -/
def firstFitGroups (m : Mat) (numSegments : Nat) : List (List Nat) :=
  (List.range numSegments).foldl (fun gs i => firstFitInsert m i gs) [[]]

/-- Fill loop of `OverlapUtil::getFramesForSegment` (lines 116-144): for each
frame append it to its referenced segment's slot.  The source writes
`m_framesForSegment[segNum - 1]` without a range check; a reference beyond the
segment count would be an out-of-bounds write (undefined behavior), which
`List.set` models as a dropped write — no claim exercises that path. -/
def ffsGo (src : SegSource) : Nat → Nat → List (List Nat) → Except Err (List (List Nat))
  | _, 0, table => .ok table
  | i, n + 1, table =>
    match src.segmentRef i with
    | none => ffsGo src (i + 1) n table
    | some 0 => .error .invalidValue
    | some (s + 1) => ffsGo src (i + 1) n (table.set s (table.getD s [] ++ [i]))

/-- Cache fill of `OverlapUtil::getFramesForSegment` (lines 102-145): reject
more than `2^32 - 1` frames, resize the table to one slot per segment, then
run the fill loop. -/
def buildFramesForSegment (src : SegSource) : Except Err (List (List Nat)) :=
  if src.numberOfFrames > 4294967295 then .error .illegalParameter
  else ffsGo src 0 src.numberOfFrames (List.replicate src.numberOfSegments [])

/-- `OverlapUtil::getFramesForSegment` (lines 95-148): the guard rejects
segment number `0` and anything above `numberOfSegments + 1`; the final read
`m_framesForSegment[segmentNumber - 1]` is embedded as `List.getElem?`, whose
`none` marks the out-of-bounds access the source performs when
`segmentNumber = numberOfSegments + 1`. -/
def getFramesForSegment (src : SegSource) (cache : List (List Nat))
    (segmentNumber : Nat) : Except Err (Option (List Nat)) :=
  if segmentNumber = 0 ∨ segmentNumber > src.numberOfSegments + 1 then
    .error .illegalParameter
  else
    match (if cache = [] then buildFramesForSegment src else .ok cache) with
    | .error e => .error e
    | .ok table => .ok table[segmentNumber - 1]?

/-- Four parallel axial frames at dominant-axis positions 0, 0.01, 5, 5.01
with slice thickness 1.0 — the spec's position-grouping scenario.  The
program stores the positions as IEEE-754 binary64 values, so the coordinates
below are the exact rationals of those doubles: `fl(0.01) =
5764607523034235 / 2^59` and `fl(5.01) = 2820379266640773 / 2^49` (0, 5 and
the thickness 1.0 are exact).  On these inputs every tolerance comparison the
program performs is decided identically by exact rational arithmetic: the two
boundary subtractions `fl(0.01) - 0` and `fl(5.01) - 5` are exact in double
(the latter by the Sterbenz lemma), and the remaining difference, about 4.99,
is nowhere near the tolerance. -/
def scenarioSrc : SegSource where
  numberOfFrames := 4
  numberOfSegments := 1
  imageOrientation := some [1, 0, 0, 0, 1, 0]
  orientationPerFrame := false
  positionAt := fun i =>
    if i = 0 then some [0, 0, 0]
    else if i = 1 then some [0, 0, 5764607523034235 / 576460752303423488]
    else if i = 2 then some [0, 0, 5]
    else if i = 3 then some [0, 0, 2820379266640773 / 562949953421312]
    else none
  sliceThickness := some 1
  segmentRef := fun _ => some 1
  frameData := fun _ => some [1]
  rows := 1
  cols := 8

/-- Two parallel frames at distinct positions; frame 0 references segment 1,
frame 1 carries the illegal Referenced Segment Number 0. -/
def badRefSrc : SegSource where
  numberOfFrames := 2
  numberOfSegments := 1
  imageOrientation := some [1, 0, 0, 0, 1, 0]
  orientationPerFrame := false
  positionAt := fun i =>
    if i = 0 then some [0, 0, 0]
    else if i = 1 then some [0, 0, 5]
    else none
  sliceThickness := some 1
  segmentRef := fun i => if i = 0 then some 1 else some 0
  frameData := fun _ => some [1]
  rows := 1
  cols := 8

/-- Two co-located frames for two segments whose packed masks have different
byte lengths (1 versus 2), with `rows * cols = 8` so the binary comparison
path runs. -/
def mismatchSrc : SegSource where
  numberOfFrames := 2
  numberOfSegments := 2
  imageOrientation := some [1, 0, 0, 0, 1, 0]
  orientationPerFrame := false
  positionAt := fun i => if i ≤ 1 then some [0, 0, 0] else none
  sliceThickness := some 1
  segmentRef := fun i => if i = 0 then some 1 else some 2
  frameData := fun i => if i = 0 then some [1] else some [1, 1]
  rows := 1
  cols := 8

/-- Two co-located frames for two segments with packed masks `0b1100` and
`0b1000` sharing bit 3, `rows * cols = 8`. -/
def packedSrc : SegSource where
  numberOfFrames := 2
  numberOfSegments := 2
  imageOrientation := some [1, 0, 0, 0, 1, 0]
  orientationPerFrame := false
  positionAt := fun i => if i ≤ 1 then some [0, 0, 0] else none
  sliceThickness := some 1
  segmentRef := fun i => if i = 0 then some 1 else some 2
  frameData := fun i => if i = 0 then some [12] else some [8]
  rows := 1
  cols := 8

/-- A source with two declared segments and no frames at all. -/
def noFrameSrc : SegSource where
  numberOfFrames := 0
  numberOfSegments := 2
  imageOrientation := some [1, 0, 0, 0, 1, 0]
  orientationPerFrame := false
  positionAt := fun _ => none
  sliceThickness := some 1
  segmentRef := fun _ => none
  frameData := fun _ => none
  rows := 1
  cols := 8

/-- Overlap matrix for three segments in which segment 1 overlaps segments 2
and 3 while segments 2 and 3 do not overlap each other. -/
def matrixThree : Mat := fun i j =>
  if i = j then 0
  else if (i = 0 ∧ (j = 1 ∨ j = 2)) ∨ (j = 0 ∧ (i = 1 ∨ i = 2)) then 1
  else 0

/-- Bounded symmetry check for a matrix, decidable form used as a theorem
hypothesis so that witnesses can discharge it by evaluation. -/
def symmCheck (m : Mat) (n : Nat) : Bool :=
  (List.range n).all (fun p => (List.range n).all (fun q => m p q == m q p))

/-- Decidable well-formedness of a segments-by-position table: every recorded
segment number lies in `1..n` (which `getSegmentsByPosition` guarantees for
the tables it builds). -/
def segsInRange (sbp : List (List (Nat × Nat))) (n : Nat) : Bool :=
  sbp.all (fun p => p.all (fun e => decide (1 ≤ e.1) && decide (e.1 ≤ n)))

/-- C1: with three segments where segment 1 overlaps segments 2 and 3 and
segments 2 and 3 are disjoint, `getNonOverlappingSegments` produces
`[[1], [2], [3]]`: segment 3 receives a fresh group even though the existing
group `[2]` contains no segment overlapping it (third conjunct), because the
`overlaps` flag is never reset between groups.  The first-fit rule the claim
states would give `[[1], [2, 3]]` (fourth conjunct). -/
theorem c1_partition_eval :
    getNonOverlappingSegments matrixThree 3 = [[1], [2], [3]] ∧
    matrixThree 2 0 = 1 ∧
    segOverlapsGroup matrixThree 2 [2] = false ∧
    firstFitGroups matrixThree 3 = [[1], [2, 3]] :=
  ⟨rfl, rfl, rfl, rfl⟩

/-- C2: on `badRefSrc` the first `getSegmentsByPosition` call fails with
`EC_InvalidValue` yet leaves the partially filled table `[[(1,0)], []]` in the
`m_segmentsByPosition` cache; the retried call takes the non-empty-cache fast
path and returns success together with that partial table. -/
theorem c2_retry_partial_cache_eval :
    (getSegmentsByPosition badRefSrc emptyState []).1 = .error .invalidValue ∧
    (getSegmentsByPosition badRefSrc emptyState []).2.2.m_segmentsByPosition
      = [[(1, 0)], []] ∧
    (getSegmentsByPosition badRefSrc
        (getSegmentsByPosition badRefSrc emptyState []).2.2 []).1 = .ok () ∧
    (getSegmentsByPosition badRefSrc
        (getSegmentsByPosition badRefSrc emptyState []).2.2 []).2.1
      = [[(1, 0)], []] := by
  norm_num [getSegmentsByPosition, getFramesByPosition, groupFramesByPosition, emptyState,
    ensureFramesAreParallel, badRefSrc, collectPhysicalFramePositions, collectFrom,
    groupFramesByLogicalPosition, identifyChangingCoordinate, sortByCoord, insertByCoord,
    clusterGo, coordOf, fillSegsByPos, segsForPositionGo, segInsert, abs_of_nonneg]
  simp

/-- C3: when the two compared masks have lengths 1 and 2,
`checkFramesOverlapBinary` and `checkFramesOverlap` do return the error
(`EC_IllegalCall`, the spec's `InconsistentFrameData`), but `buildOverlapMatrix`
discards that return code: it still returns success and records `0`
(NoOverlap) in both cells of the pair instead of propagating the error. -/
theorem c3_mismatch_ignored_eval :
    checkFramesOverlapBinary [1] [1, 1] = .error .illegalCall ∧
    checkFramesOverlap mismatchSrc 0 1 = .error .illegalCall ∧
    buildOverlapMatrix mismatchSrc [[(1, 0), (2, 1)]]
      = .ok (buildOverlapMatrixFn mismatchSrc [[(1, 0), (2, 1)]]) ∧
    buildOverlapMatrixFn mismatchSrc [[(1, 0), (2, 1)]] 0 1 = 0 ∧
    buildOverlapMatrixFn mismatchSrc [[(1, 0), (2, 1)]] 1 0 = 0 :=
  ⟨rfl, rfl, rfl, rfl, rfl⟩

/-- C4 counterexample: on four frames at dominant-axis positions
0, 0.01, 5, 5.01 (stored as binary64 values) with slice thickness 1.0,
position grouping succeeds but does not produce the two claimed
LogicalPositions `{0,1}` and `{2,3}`: the difference `fl(0.01) - 0` equals the
tolerance `1.0 * fl(0.01)` exactly and fails the strict test, so frames 0 and
1 stay separate, while `fl(5.01) - 5` (an exact double subtraction) is below
the tolerance, so frames 2 and 3 do merge — the program computes
`[[0], [1], [2, 3]]`. -/
theorem c4_scenario_counterexample :
    (groupFramesByPosition scenarioSrc emptyState).1 = .ok () ∧
    (groupFramesByPosition scenarioSrc emptyState).2.m_logicalFramePositions
      = [[0], [1], [2, 3]] ∧
    [[0], [1], [2, 3]] ≠ [[0, 1], [2, 3]] := by
  refine ⟨?_, ?_, by decide⟩ <;>
  norm_num [groupFramesByPosition, emptyState, ensureFramesAreParallel, scenarioSrc,
    collectPhysicalFramePositions, collectFrom, groupFramesByLogicalPosition,
    identifyChangingCoordinate, sortByCoord, insertByCoord, clusterGo, coordOf,
    abs_of_nonneg]

/-- Accumulator factoring for the clustering loop: the groups closed before
entering the loop pass through unchanged. -/
theorem clusterGo_append_acc (tol : ℚ) (c : Nat) :
    ∀ (pending : List FramePositionAndNumber) (prev : FramePositionAndNumber)
      (cur : List Nat) (acc : List (List Nat)),
    clusterGo tol c pending prev cur acc = acc ++ clusterGo tol c pending prev cur [] := by
  intro pending
  induction pending with
  | nil => intro prev cur acc; simp [clusterGo]
  | cons y rest ih =>
    intro prev cur acc
    simp only [clusterGo]
    split_ifs with h
    · exact ih y (cur ++ [y.m_frameNumber]) acc
    · rw [ih y [y.m_frameNumber] (acc ++ [cur]), ih y [y.m_frameNumber] ([] ++ [cur])]
      simp

/-- A frame number already sitting at the front of the open group stays at the
front of the first produced group. -/
theorem clusterGo_consHead (tol : ℚ) (c : Nat) :
    ∀ (pending : List FramePositionAndNumber) (prev : FramePositionAndNumber)
      (x : Nat) (cur : List Nat),
    clusterGo tol c pending prev (x :: cur) []
      = consHead x (clusterGo tol c pending prev cur []) := by
  intro pending
  induction pending with
  | nil => intro prev x cur; simp [clusterGo, consHead]
  | cons y rest ih =>
    intro prev x cur
    simp only [clusterGo]
    split_ifs with h
    · rw [List.cons_append, ih]
    · rw [clusterGo_append_acc tol c rest y [y.m_frameNumber] ([] ++ [x :: cur]),
          clusterGo_append_acc tol c rest y [y.m_frameNumber] ([] ++ [cur])]
      simp [consHead]

/-- Flattening the produced groups returns the processed frame numbers in
order: the grouping partitions the sorted frames. -/
theorem clusterGo_flatten (tol : ℚ) (c : Nat) :
    ∀ (pending : List FramePositionAndNumber) (prev : FramePositionAndNumber)
      (cur : List Nat) (acc : List (List Nat)),
    (clusterGo tol c pending prev cur acc).flatten
      = acc.flatten ++ cur ++ pending.map FramePositionAndNumber.m_frameNumber := by
  intro pending
  induction pending with
  | nil => intro prev cur acc; simp [clusterGo]
  | cons y rest ih =>
    intro prev cur acc
    simp only [clusterGo]
    split_ifs with h
    · rw [ih]; simp
    · rw [ih]; simp

/-- C4 (amended): a subsequent sorted frame joins the current LogicalPosition
exactly when the absolute dominant-axis difference to the previous sorted
frame is strictly less than the tolerance — first conjunct: the group of `y`
absorbs `x` iff `|coord y - coord x| < tol`, else `x` stays alone; second
conjunct: the groups partition the sorted frames in order.  Third conjunct:
in the spec's 4-frame scenario (positions 0, 0.01, 5, 5.01 as binary64
values, thickness 1.0) the difference of frames 0 and 1 equals the tolerance
exactly and fails the strict test while that of frames 2 and 3 lies below it,
so the grouping yields the LogicalPositions `{0} {1} {2,3}`, not the claimed
`{0,1} {2,3}`. -/
theorem c4_grouping_rule :
    (∀ (tol : ℚ) (c : Nat) (x y : FramePositionAndNumber)
        (pending : List FramePositionAndNumber),
      clusterGo tol c (y :: pending) x [x.m_frameNumber] []
        = if |coordOf y c - coordOf x c| < tol
          then consHead x.m_frameNumber (clusterGo tol c pending y [y.m_frameNumber] [])
          else [x.m_frameNumber] :: clusterGo tol c pending y [y.m_frameNumber] []) ∧
    (∀ (tol : ℚ) (c : Nat) (x : FramePositionAndNumber)
        (pending : List FramePositionAndNumber),
      (clusterGo tol c pending x [x.m_frameNumber] []).flatten
        = x.m_frameNumber :: pending.map FramePositionAndNumber.m_frameNumber) ∧
    (groupFramesByPosition scenarioSrc emptyState).2.m_logicalFramePositions
      = [[0], [1], [2, 3]] := by
  refine ⟨?_, ?_, ?_⟩
  · intro tol c x y pending
    simp only [clusterGo]
    split_ifs with h
    · exact clusterGo_consHead tol c pending y x.m_frameNumber [y.m_frameNumber]
    · rw [clusterGo_append_acc tol c pending y [y.m_frameNumber] ([] ++ [[x.m_frameNumber]])]
      simp
  · intro tol c x pending
    rw [clusterGo_flatten]
    simp
  · norm_num [groupFramesByPosition, emptyState, ensureFramesAreParallel, scenarioSrc,
      collectPhysicalFramePositions, collectFrom, groupFramesByLogicalPosition,
      identifyChangingCoordinate, sortByCoord, insertByCoord, clusterGo, coordOf,
      abs_of_nonneg]

/-- The fill loop of `getFramesForSegment` never changes the length of the
per-segment table. -/
theorem ffsGo_length (src : SegSource) :
    ∀ (n i : Nat) (t t2 : List (List Nat)), ffsGo src i n t = .ok t2 → t2.length = t.length := by
  intro n
  induction n with
  | zero =>
    intro i t t2 h
    simp only [ffsGo, Except.ok.injEq] at h
    rw [← h]
  | succ n ih =>
    intro i t t2 h
    simp only [ffsGo] at h
    cases hr : src.segmentRef i with
    | none => rw [hr] at h; exact ih (i + 1) t t2 h
    | some s =>
      cases s with
      | zero => rw [hr] at h; cases h
      | succ s =>
        rw [hr] at h
        have h2 := ih (i + 1) _ t2 h
        rw [h2, List.length_set]

/-- C9: `getFramesForSegment` rejects segment number 0 and every segment
number strictly greater than `numberOfSegments + 1`, yet accepts
`numberOfSegments + 1` itself; the per-segment table has exactly
`numberOfSegments` entries, so the final lookup at index `numberOfSegments`
is one past the last element — the embedded `getElem?` read returns `none`
where the source performs an out-of-bounds `std::vector` access. -/
theorem c9_frames_for_segment_bounds (src : SegSource) (table : List (List Nat))
    (hb : buildFramesForSegment src = .ok table) :
    getFramesForSegment src [] 0 = .error .illegalParameter ∧
    (∀ k, src.numberOfSegments + 1 < k →
      getFramesForSegment src [] k = .error .illegalParameter) ∧
    table.length = src.numberOfSegments ∧
    getFramesForSegment src [] (src.numberOfSegments + 1) = .ok none := by
  have hlen : table.length = src.numberOfSegments := by
    unfold buildFramesForSegment at hb
    split at hb
    · cases hb
    · have h2 := ffsGo_length src src.numberOfFrames 0 _ table hb
      rw [h2, List.length_replicate]
  refine ⟨?_, ?_, hlen, ?_⟩
  · simp [getFramesForSegment]
  · intro k hk
    unfold getFramesForSegment
    rw [if_pos (Or.inr hk)]
  · unfold getFramesForSegment
    rw [if_neg (by rintro (h | h) <;> omega)]
    rw [if_pos rfl, hb]
    show (Except.ok table[src.numberOfSegments]? : Except Err (Option (List Nat)))
      = Except.ok none
    rw [List.getElem?_eq_none (by omega)]

/-- C9 witness: on the two-segment source without frames the guard accepts
segment number 3 and the read one past the table's end yields `none`. -/
theorem c9_frames_for_segment_bounds_witness :
    buildFramesForSegment noFrameSrc = .ok [[], []] ∧
    getFramesForSegment noFrameSrc [] 3 = .ok none :=
  ⟨rfl, (c9_frames_for_segment_bounds noFrameSrc [[], []] rfl).2.2.2⟩

/-- C10: for a volume with zero frames the collection pass succeeds trivially
with the empty position list, after which `groupFramesByLogicalPosition`
(given a present slice thickness and a determined sorting axis) reaches the
unchecked read of `m_framePositions[0]` — out of bounds on the empty vector,
surfaced by the embedding as `Err.outOfBoundsRead`. -/
theorem c10_empty_volume_oob (src : SegSource) (orient : List ℚ) (th : ℚ)
    (h0 : src.numberOfFrames = 0) (ht : src.sliceThickness = some th)
    (hc : identifyChangingCoordinate orient < 3) :
    collectPhysicalFramePositions src = .ok [] ∧
    groupFramesByLogicalPosition src orient [] = .error .outOfBoundsRead := by
  constructor
  · unfold collectPhysicalFramePositions
    rw [h0]
    rfl
  · unfold groupFramesByLogicalPosition
    rw [ht]
    simp [hc, sortByCoord]

/-- C10 witness: the zero-frame source with axial orientation and slice
thickness 1 collects an empty list and then hits the out-of-bounds read. -/
theorem c10_empty_volume_oob_witness :
    noFrameSrc.numberOfFrames = 0 ∧ noFrameSrc.sliceThickness = some 1 ∧
    identifyChangingCoordinate [1, 0, 0, 0, 1, 0] < 3 ∧
    collectPhysicalFramePositions noFrameSrc = .ok [] ∧
    groupFramesByLogicalPosition noFrameSrc [1, 0, 0, 0, 1, 0] []
      = .error .outOfBoundsRead := by
  have hc : identifyChangingCoordinate [1, 0, 0, 0, 1, 0] < 3 := by
    norm_num [identifyChangingCoordinate]
  have h := c10_empty_volume_oob noFrameSrc [1, 0, 0, 0, 1, 0] 1 rfl rfl hc
  exact ⟨rfl, rfl, hc, h.1, h.2⟩

/-- With the `overlaps` flag already `OFTrue`, the group loop changes nothing
and keeps the flag: the source's flag is sticky across groups. -/
theorem assignLoop_true (m : Mat) (i : Nat) :
    ∀ gs, assignLoop m i gs true = (gs, true) := by
  intro gs
  induction gs with
  | nil => rfl
  | cons g gs ih => simp [assignLoop, ih]

/-- Closed form of one segment-loop iteration: segment `i+1` joins the very
first group when that group has no overlapping member, and otherwise gets a
fresh singleton group at the end — later groups are never joined because the
sticky flag keeps the `!overlaps` test false for them. -/
theorem addSegment_cons (m : Mat) (i : Nat) (g : List Nat) (gs : List (List Nat)) :
    addSegment m i (g :: gs)
      = if segOverlapsGroup m i g then (g :: gs) ++ [[i + 1]]
        else (g ++ [i + 1]) :: gs := by
  unfold addSegment
  cases h : segOverlapsGroup m i g with
  | false => simp [assignLoop, h]
  | true => simp [assignLoop, h, assignLoop_true]

/-- Unfolding of the segment fold by one step. -/
theorem nos_succ (m : Mat) (n : Nat) :
    getNonOverlappingSegments m (n + 1) = addSegment m n (getNonOverlappingSegments m n) := by
  unfold getNonOverlappingSegments
  rw [List.range_succ, List.foldl_append]
  rfl

/-- Pointwise reading of the bounded symmetry check. -/
theorem symmCheck_spec (m : Mat) (n : Nat) (h : symmCheck m n = true) :
    ∀ p q, p < n → q < n → m p q = m q p := by
  intro p q hp hq
  unfold symmCheck at h
  rw [List.all_eq_true] at h
  have h2 := h p (List.mem_range.mpr hp)
  rw [List.all_eq_true] at h2
  have h3 := h2 q (List.mem_range.mpr hq)
  exact eq_of_beq h3

/-- Pointwise reading of a failed group-overlap test. -/
theorem segOverlapsGroup_false (m : Mat) (i : Nat) (g : List Nat)
    (h : segOverlapsGroup m i g = false) : ∀ s ∈ g, m i (s - 1) ≠ 1 := by
  intro s hs
  have h2 : ¬ (g.any (fun s => m i (s - 1) == 1) = true) := by
    rw [show (g.any (fun s => m i (s - 1) == 1)) = segOverlapsGroup m i g from rfl, h]
    simp
  rw [List.any_eq_true] at h2
  push_neg at h2
  have h3 := h2 s hs
  simpa using h3

/-- Invariant of the segment fold after `n` of the `nSeg` segments have been
placed: the group list is non-empty, each segment `1..n` occurs exactly once
across the groups, all members lie in `1..n`, and no group holds two distinct
members whose matrix cell is `1`. -/
theorem nos_invariant (m : Mat) (nSeg : Nat) (hsym : symmCheck m nSeg = true) :
    ∀ n, n ≤ nSeg →
      getNonOverlappingSegments m n ≠ [] ∧
      (∀ s, List.count s (getNonOverlappingSegments m n).flatten
          = if 1 ≤ s ∧ s ≤ n then 1 else 0) ∧
      (∀ g ∈ getNonOverlappingSegments m n, ∀ a ∈ g, 1 ≤ a ∧ a ≤ n) ∧
      (∀ g ∈ getNonOverlappingSegments m n, ∀ a ∈ g, ∀ b ∈ g, a ≠ b →
          m (a - 1) (b - 1) ≠ 1) := by
  intro n
  induction n with
  | zero =>
    intro _
    refine ⟨by simp [getNonOverlappingSegments], ?_, ?_, ?_⟩
    · intro s
      rw [if_neg (by omega)]
      simp [getNonOverlappingSegments]
    · intro g hg a ha
      simp [getNonOverlappingSegments] at hg
      subst hg
      simp at ha
    · intro g hg a ha
      simp [getNonOverlappingSegments] at hg
      subst hg
      simp at ha
  | succ n ih =>
    intro hn
    have hlt : n < nSeg := hn
    obtain ⟨hne, hcount, hbound, hsep⟩ := ih (Nat.le_of_lt hlt)
    obtain ⟨g, rest, hgr⟩ : ∃ g rest, getNonOverlappingSegments m n = g :: rest := by
      cases h : getNonOverlappingSegments m n with
      | nil => exact absurd h hne
      | cons g rest => exact ⟨g, rest, rfl⟩
    rw [hgr] at hcount hbound hsep
    rw [nos_succ, hgr, addSegment_cons]
    cases hov : segOverlapsGroup m n g with
    | false =>
      rw [if_neg (by simp [hov])]
      have hnov := segOverlapsGroup_false m n g hov
      refine ⟨by simp, ?_, ?_, ?_⟩
      · intro s
        have hc := hcount s
        simp only [List.flatten_cons, List.count_append] at hc ⊢
        have hcs : List.count s [n + 1] = if s = n + 1 then 1 else 0 := by
          cases Nat.decEq s (n + 1) with
          | isTrue h => simp [h]
          | isFalse h => simp [List.count_singleton', h]
        rw [hcs]
        split_ifs at hc ⊢ <;> omega
      · intro g2 hg2 a ha
        rcases List.mem_cons.mp hg2 with h | h
        · subst h
          rcases List.mem_append.mp ha with h2 | h2
          · have := hbound g (List.mem_cons_self g rest) a h2
            omega
          · simp at h2
            omega
        · have := hbound g2 (List.mem_cons_of_mem g h) a ha
          omega
      · intro g2 hg2 a ha b hb hab
        rcases List.mem_cons.mp hg2 with h | h
        · subst h
          have hgmem : g ∈ g :: rest := List.mem_cons_self g rest
          rcases List.mem_append.mp ha with ha2 | ha2 <;>
            rcases List.mem_append.mp hb with hb2 | hb2
          · exact hsep g hgmem a ha2 b hb2 hab
          · simp at hb2
            subst hb2
            have hb1 : 1 ≤ a ∧ a ≤ n := hbound g hgmem a ha2
            have hmna : m n (a - 1) ≠ 1 := hnov a ha2
            have hsw : m (a - 1) n = m n (a - 1) :=
              symmCheck_spec m nSeg hsym (a - 1) n (by omega) hlt
            rw [show n + 1 - 1 = n from rfl, hsw]
            exact hmna
          · simp at ha2
            subst ha2
            have hmnb : m n (b - 1) ≠ 1 := hnov b hb2
            rw [show n + 1 - 1 = n from rfl]
            exact hmnb
          · simp at ha2 hb2
            omega
        · exact hsep g2 (List.mem_cons_of_mem g h) a ha b hb hab
    | true =>
      rw [if_pos (by simp [hov])]
      refine ⟨by simp, ?_, ?_, ?_⟩
      · intro s
        have hc := hcount s
        simp only [List.flatten_append, List.flatten_cons, List.count_append,
          List.flatten_nil, List.count_nil] at hc ⊢
        have hcs : List.count s [n + 1] = if s = n + 1 then 1 else 0 := by
          cases Nat.decEq s (n + 1) with
          | isTrue h => simp [h]
          | isFalse h => simp [List.count_singleton', h]
        rw [hcs]
        split_ifs at hc ⊢ <;> omega
      · intro g2 hg2 a ha
        rcases List.mem_append.mp hg2 with h | h
        · have := hbound g2 h a ha
          omega
        · simp at h
          subst h
          simp at ha
          omega
      · intro g2 hg2 a ha b hb hab
        rcases List.mem_append.mp hg2 with h | h
        · exact hsep g2 h a ha b hb hab
        · simp at h
          subst h
          simp at ha hb
          omega

/-- C6: for a symmetric overlap matrix, the partition computed by
`getNonOverlappingSegments` contains every segment number `1..N` exactly once
(first conjunct counts occurrences across the flattened groups), and no group
contains two distinct segments whose overlap-matrix cell is `Overlap` (`1`). -/
theorem c6_partition_invariants (m : Mat) (nSeg : Nat)
    (hsym : symmCheck m nSeg = true) :
    (∀ s, List.count s (getNonOverlappingSegments m nSeg).flatten
        = if 1 ≤ s ∧ s ≤ nSeg then 1 else 0) ∧
    (∀ g ∈ getNonOverlappingSegments m nSeg, ∀ a ∈ g, ∀ b ∈ g, a ≠ b →
        m (a - 1) (b - 1) ≠ 1) := by
  obtain ⟨_, h2, _, h4⟩ := nos_invariant m nSeg hsym nSeg le_rfl
  exact ⟨h2, h4⟩

/-- C6 witness: the three-segment matrix is symmetric and segment 2 occurs
exactly once in the computed partition. -/
theorem c6_partition_invariants_witness :
    symmCheck matrixThree 3 = true ∧
    List.count 2 (getNonOverlappingSegments matrixThree 3).flatten
      = if 1 ≤ 2 ∧ 2 ≤ 3 then 1 else 0 :=
  ⟨rfl, (c6_partition_invariants matrixThree 3 rfl).1 2⟩

/-- The symmetric pair of writes preserves matrix symmetry. -/
theorem writeSym_symm (m : Mat) (A B : Nat) (v : Int) (h : ∀ p q, m p q = m q p) :
    ∀ p q, writeSym m A B v p q = writeSym m A B v q p := by
  intro p q
  unfold writeSym
  split_ifs with h3 h4
  · rfl
  · exact absurd (by tauto) h4
  · exact absurd (by tauto) h3
  · exact h p q

/-- An off-diagonal symmetric write leaves the zero diagonal intact. -/
theorem writeSym_diag (m : Mat) (A B : Nat) (v : Int) (hAB : A ≠ B)
    (h : ∀ p, m p p = 0) : ∀ p, writeSym m A B v p p = 0 := by
  intro p
  unfold writeSym
  rw [if_neg]
  · exact h p
  · rintro (⟨h3, h4⟩ | ⟨h3, h4⟩) <;> omega

/-- A symmetric write leaves every other cell unchanged. -/
theorem writeSym_miss (m : Mat) (A B : Nat) (v : Int) (i j : Nat)
    (hne : ¬ ((i = A ∧ j = B) ∨ (i = B ∧ j = A))) : writeSym m A B v i j = m i j := by
  unfold writeSym
  rw [if_neg hne]

/-- One pair comparison preserves matrix symmetry. -/
theorem processPair_symm (src : SegSource) (a b : Nat × Nat) (m : Mat)
    (h : ∀ p q, m p q = m q p) :
    ∀ p q, processPair src m a b p q = processPair src m a b q p := by
  intro p q
  unfold processPair
  by_cases h1 : a.1 ≠ b.1
  · rw [if_pos h1]
    by_cases h2 : m (a.1 - 1) (b.1 - 1) = 1
    · rw [if_pos h2]; exact h p q
    · rw [if_neg h2]; exact writeSym_symm m _ _ _ h p q
  · rw [if_neg h1]; exact h p q

/-- One pair comparison of two segments with valid (nonzero) numbers leaves
the zero diagonal intact: the write targets `a.1 - 1 ≠ b.1 - 1`. -/
theorem processPair_diag (src : SegSource) (a b : Nat × Nat) (m : Mat)
    (ha : 1 ≤ a.1) (hb : 1 ≤ b.1) (h : ∀ p, m p p = 0) :
    ∀ p, processPair src m a b p p = 0 := by
  intro p
  unfold processPair
  by_cases h1 : a.1 ≠ b.1
  · rw [if_pos h1]
    by_cases h2 : m (a.1 - 1) (b.1 - 1) = 1
    · rw [if_pos h2]; exact h p
    · rw [if_neg h2]; exact writeSym_diag m _ _ _ (by omega) h p
  · rw [if_neg h1]; exact h p

/-- A pair comparison not involving segments `i+1` and `j+1` leaves the cell
`(i, j)` at its initial `-1`. -/
theorem processPair_untouched (src : SegSource) (a b : Nat × Nat) (m : Mat) (i j : Nat)
    (hmiss : ¬ ((a.1 = i + 1 ∧ b.1 = j + 1) ∨ (a.1 = j + 1 ∧ b.1 = i + 1)))
    (ha : 1 ≤ a.1) (hb : 1 ≤ b.1) (h : m i j = -1) :
    processPair src m a b i j = -1 := by
  unfold processPair
  by_cases h1 : a.1 ≠ b.1
  · rw [if_pos h1]
    by_cases h2 : m (a.1 - 1) (b.1 - 1) = 1
    · rw [if_pos h2]; exact h
    · rw [if_neg h2, writeSym_miss]
      · exact h
      · rintro (⟨h3, h4⟩ | ⟨h3, h4⟩)
        · exact hmiss (Or.inl ⟨by omega, by omega⟩)
        · exact hmiss (Or.inr ⟨by omega, by omega⟩)
  · rw [if_neg h1]; exact h

/-- A matrix predicate preserved by every pair step survives the inner
comparison loop. -/
theorem bomInner_preserve (src : SegSource) (P : Mat → Prop) (a : Nat × Nat) :
    ∀ (bs : List (Nat × Nat)),
      (∀ b ∈ bs, ∀ m2, P m2 → P (processPair src m2 a b)) →
      ∀ (m : Mat) (i1 i2 : Nat), P m → P (bomInner src a bs m i1 i2).1 := by
  intro bs
  induction bs with
  | nil => intro _ m i1 i2 hm; exact hm
  | cons b bs ih =>
    intro hstep m i1 i2 hm
    simp only [bomInner]
    split_ifs with h
    · exact ih (fun b2 hb2 => hstep b2 (List.mem_cons_of_mem _ hb2)) m i1 (i2 + 1) hm
    · exact ih (fun b2 hb2 => hstep b2 (List.mem_cons_of_mem _ hb2)) _ i1 (i2 + 1)
        (hstep b (List.mem_cons_self _ _) m hm)

/-- A matrix predicate preserved by every pair step survives one position's
double loop. -/
theorem bomMiddle_preserve (src : SegSource) (P : Mat → Prop) (s : List (Nat × Nat)) :
    ∀ (as : List (Nat × Nat)),
      (∀ a ∈ as, ∀ b ∈ s, ∀ m2, P m2 → P (processPair src m2 a b)) →
      ∀ (m : Mat) (i1 i2 : Nat), P m → P (bomMiddle src s as m i1 i2).1 := by
  intro as
  induction as with
  | nil => intro _ m i1 i2 hm; exact hm
  | cons a as ih =>
    intro hstep m i1 i2 hm
    simp only [bomMiddle]
    exact ih (fun a2 ha2 => hstep a2 (List.mem_cons_of_mem _ ha2)) _ (i1 + 1) _
      (bomInner_preserve src P a s (fun b hb => hstep a (List.mem_cons_self _ _) b hb)
        m (i1 + 1) i2 hm)

/-- A matrix predicate preserved by every pair step survives the whole
position loop. -/
theorem bomOuter_preserve (src : SegSource) (P : Mat → Prop) :
    ∀ (ps : List (List (Nat × Nat))),
      (∀ p ∈ ps, ∀ a ∈ p, ∀ b ∈ p, ∀ m2, P m2 → P (processPair src m2 a b)) →
      ∀ (m : Mat) (i1 i2 : Nat), P m → P (bomOuter src ps m i1 i2) := by
  intro ps
  induction ps with
  | nil => intro _ m i1 i2 hm; exact hm
  | cons p ps ih =>
    intro hstep m i1 i2 hm
    simp only [bomOuter]
    exact ih (fun p2 hp2 => hstep p2 (List.mem_cons_of_mem _ hp2)) _ _ _
      (bomMiddle_preserve src P p p
        (fun a ha b hb => hstep p (List.mem_cons_self _ _) a ha b hb) m i1 i2 hm)

/-- Pointwise reading of the decidable well-formedness check. -/
theorem segsInRange_spec (sbp : List (List (Nat × Nat))) (n : Nat)
    (h : segsInRange sbp n = true) :
    ∀ p ∈ sbp, ∀ e ∈ p, 1 ≤ e.1 ∧ e.1 ≤ n := by
  intro p hp e he
  unfold segsInRange at h
  rw [List.all_eq_true] at h
  have h2 := h p hp
  rw [List.all_eq_true] at h2
  have h3 := h2 e he
  simp at h3
  exact ⟨h3.1, h3.2⟩

/-- C5: for every source and well-formed segments-by-position table (segment
numbers in `1..N`, as `getSegmentsByPosition` guarantees), the matrix built by
`buildOverlapMatrix` — which always returns success — is symmetric, has a zero
(NoOverlap) diagonal, contains no `-1` (Unknown) cell after finalization, and
assigns `0` (NoOverlap) to every pair of segments that never share a logical
position. -/
theorem c5_overlap_matrix_invariants (src : SegSource) (sbp : List (List (Nat × Nat)))
    (hwf : segsInRange sbp src.numberOfSegments = true) :
    (∀ i j, buildOverlapMatrixFn src sbp i j = buildOverlapMatrixFn src sbp j i) ∧
    (∀ i, buildOverlapMatrixFn src sbp i i = 0) ∧
    (∀ i j, buildOverlapMatrixFn src sbp i j ≠ -1) ∧
    (∀ i j, i ≠ j →
      (∀ p ∈ sbp, ¬ ((∃ f, (i + 1, f) ∈ p) ∧ (∃ f, (j + 1, f) ∈ p))) →
      buildOverlapMatrixFn src sbp i j = 0) := by
  have hwf2 := segsInRange_spec sbp src.numberOfSegments hwf
  have hsym : ∀ p q, bomOuter src sbp initMatrix 0 0 p q
      = bomOuter src sbp initMatrix 0 0 q p := by
    refine bomOuter_preserve src (fun m2 => ∀ p q, m2 p q = m2 q p) sbp ?_ initMatrix 0 0 ?_
    · intro p hp a ha b hb m2 hm2
      exact processPair_symm src a b m2 hm2
    · intro p q
      unfold initMatrix
      by_cases h : p = q
      · subst h; rfl
      · rw [if_neg h, if_neg (Ne.symm h)]
  have hdiag : ∀ p, bomOuter src sbp initMatrix 0 0 p p = 0 := by
    refine bomOuter_preserve src (fun m2 => ∀ p, m2 p p = 0) sbp ?_ initMatrix 0 0 ?_
    · intro p hp a ha b hb m2 hm2
      exact processPair_diag src a b m2 (hwf2 p hp a ha).1 (hwf2 p hp b hb).1 hm2
    · intro p
      simp [initMatrix]
  refine ⟨?_, ?_, ?_, ?_⟩
  · intro i j
    unfold buildOverlapMatrixFn finalizeMatrix
    rw [hsym i j]
  · intro i
    unfold buildOverlapMatrixFn finalizeMatrix
    rw [hdiag i]
    norm_num
  · intro i j
    unfold buildOverlapMatrixFn finalizeMatrix
    split_ifs with h
    · norm_num
    · exact h
  · intro i j hij hnever
    have huntouched : bomOuter src sbp initMatrix 0 0 i j = -1 := by
      refine bomOuter_preserve src (fun m2 => m2 i j = -1) sbp ?_ initMatrix 0 0 ?_
      · intro p hp a ha b hb m2 hm2
        refine processPair_untouched src a b m2 i j ?_ (hwf2 p hp a ha).1 (hwf2 p hp b hb).1 hm2
        rintro (⟨h3, h4⟩ | ⟨h3, h4⟩)
        · refine hnever p hp ⟨⟨a.2, ?_⟩, ⟨b.2, ?_⟩⟩
          · rw [← h3, Prod.mk.eta]; exact ha
          · rw [← h4, Prod.mk.eta]; exact hb
        · refine hnever p hp ⟨⟨b.2, ?_⟩, ⟨a.2, ?_⟩⟩
          · rw [← h4, Prod.mk.eta]; exact hb
          · rw [← h3, Prod.mk.eta]; exact ha
      · simp [initMatrix, hij]
    unfold buildOverlapMatrixFn finalizeMatrix
    rw [huntouched]
    norm_num

/-- C5 witness: the two-segment table over `packedSrc` is well-formed and the
resulting matrix is symmetric at the off-diagonal pair. -/
theorem c5_overlap_matrix_invariants_witness :
    segsInRange [[(1, 0), (2, 1)]] packedSrc.numberOfSegments = true ∧
    buildOverlapMatrixFn packedSrc [[(1, 0), (2, 1)]] 0 1
      = buildOverlapMatrixFn packedSrc [[(1, 0), (2, 1)]] 1 0 :=
  ⟨rfl, (c5_overlap_matrix_invariants packedSrc [[(1, 0), (2, 1)]] rfl).1 0 1⟩

/-- Index formulation of an existential scan over two zipped lists. -/
theorem zip_any_iff (f : Nat → Nat → Bool) :
    ∀ (l1 l2 : List Nat),
      ((l1.zip l2).any (fun p => f p.1 p.2) = true) ↔
        ∃ n, n < l1.length ∧ n < l2.length ∧ f (l1.getD n 0) (l2.getD n 0) = true := by
  intro l1
  induction l1 with
  | nil => intro l2; simp
  | cons a l1 ih =>
    intro l2
    cases l2 with
    | nil => simp
    | cons b l2 =>
      simp only [List.zip_cons_cons, List.any_cons, Bool.or_eq_true, ih l2]
      constructor
      · rintro (h | ⟨n, hn1, hn2, hf⟩)
        · exact ⟨0, by simp, by simp, by simpa using h⟩
        · exact ⟨n + 1, by simpa using hn1, by simpa using hn2, by simpa using hf⟩
      · rintro ⟨n, hn1, hn2, hf⟩
        cases n with
        | zero => exact Or.inl (by simpa using hf)
        | succ n =>
          exact Or.inr ⟨n, by simpa using hn1, by simpa using hn2, by simpa using hf⟩

/-- The unpacked mask has one entry per pixel. -/
theorem unpackBinaryFrame_length (d : List Nat) (rows cols : Nat) :
    (unpackBinaryFrame d rows cols).length = rows * cols := by
  simp [unpackBinaryFrame]

/-- Value of pixel `n` of an unpacked mask: bit `n % 8` of byte `n / 8`. -/
theorem unpackBinaryFrame_getD (d : List Nat) (rows cols n : Nat) (h : n < rows * cols) :
    (unpackBinaryFrame d rows cols).getD n 0
      = (d.getD (n / 8) 0 >>> (n % 8)) &&& 1 := by
  unfold unpackBinaryFrame
  rw [List.getD_eq_getElem _ _ (by simpa using h)]
  simp

/-- Every unpacked pixel value is a bit (`0` or `1`). -/
theorem unpack_le_one (d : List Nat) (rows cols n : Nat) :
    (unpackBinaryFrame d rows cols).getD n 0 ≤ 1 := by
  by_cases h : n < rows * cols
  · rw [unpackBinaryFrame_getD d rows cols n h, Nat.and_one_is_mod]
    omega
  · rw [List.getD_eq_default _ _ (by rw [unpackBinaryFrame_length]; omega)]
    omega

/-- C8: for two distinct frames with accessible pixel data of equal length,
`checkFramesOverlap` dispatches on `rows * cols % 8`; in the packed mode it
reports Overlap exactly when some byte position has a nonzero bitwise AND of
the two masks, and in the unpacked mode exactly when both unpacked
(one-value-per-pixel) masks are nonzero at some common index — the source's
test `u1[n] != 0 && u1[n] == u2[n]` coincides with "both nonzero" because
unpacked values are bits. -/
theorem c8_overlap_compare_modes (src : SegSource) (f1 f2 : Nat) (d1 d2 : List Nat)
    (hne : f1 ≠ f2) (h1 : src.frameData f1 = some d1) (h2 : src.frameData f2 = some d2)
    (hlen : d1.length = d2.length) :
    (src.rows * src.cols % 8 = 0 →
      (checkFramesOverlap src f1 f2 = .ok true ↔
        ∃ n, n < d1.length ∧ (d1.getD n 0) &&& (d2.getD n 0) ≠ 0)) ∧
    (src.rows * src.cols % 8 ≠ 0 →
      (checkFramesOverlap src f1 f2 = .ok true ↔
        ∃ n, n < src.rows * src.cols ∧
          (unpackBinaryFrame d1 src.rows src.cols).getD n 0 ≠ 0 ∧
          (unpackBinaryFrame d2 src.rows src.cols).getD n 0 ≠ 0)) := by
  have hred : checkFramesOverlap src f1 f2
      = if src.rows * src.cols % 8 ≠ 0 then
          checkFramesOverlapUnpacked d1 d2 src.rows src.cols
        else checkFramesOverlapBinary d1 d2 := by
    unfold checkFramesOverlap
    rw [if_neg hne, h1, h2]
  rw [hred]
  constructor
  · intro hmod
    rw [if_neg (by omega)]
    unfold checkFramesOverlapBinary
    rw [if_neg (by omega)]
    simp only [Except.ok.injEq]
    rw [zip_any_iff (fun x y => x &&& y != 0) d1 d2]
    constructor
    · rintro ⟨n, hn1, hn2, hf⟩
      exact ⟨n, hn1, by simpa using hf⟩
    · rintro ⟨n, hn1, hf⟩
      exact ⟨n, hn1, by omega, by simpa using hf⟩
  · intro hmod
    rw [if_pos hmod]
    unfold checkFramesOverlapUnpacked
    rw [if_neg (by rw [unpackBinaryFrame_length, unpackBinaryFrame_length]; omega)]
    simp only [Except.ok.injEq]
    rw [zip_any_iff (fun x y => x != 0 && x == y)]
    constructor
    · rintro ⟨n, hn1, hn2, hf⟩
      rw [unpackBinaryFrame_length] at hn1
      simp only [Bool.and_eq_true, bne_iff_ne, beq_iff_eq] at hf
      refine ⟨n, hn1, hf.1, ?_⟩
      rw [← hf.2]
      exact hf.1
    · rintro ⟨n, hn1, ha, hb⟩
      have l1 := unpack_le_one d1 src.rows src.cols n
      have l2 := unpack_le_one d2 src.rows src.cols n
      refine ⟨n, by rw [unpackBinaryFrame_length]; omega,
        by rw [unpackBinaryFrame_length]; omega, ?_⟩
      simp only [Bool.and_eq_true, bne_iff_ne, beq_iff_eq]
      exact ⟨ha, by omega⟩

/-- C8 witness: masks `0b1100` and `0b1000` over an 8-pixel frame take the
packed branch, and the bitwise-AND characterization holds for them. -/
theorem c8_overlap_compare_modes_witness :
    (0 : Nat) ≠ 1 ∧ packedSrc.frameData 0 = some [12] ∧
    packedSrc.frameData 1 = some [8] ∧
    ([12] : List Nat).length = ([8] : List Nat).length ∧
    packedSrc.rows * packedSrc.cols % 8 = 0 ∧
    (checkFramesOverlap packedSrc 0 1 = .ok true ↔
      ∃ n, n < ([12] : List Nat).length ∧
        (([12] : List Nat).getD n 0) &&& (([8] : List Nat).getD n 0) ≠ 0) := by
  refine ⟨by omega, rfl, rfl, rfl, rfl, ?_⟩
  exact (c8_overlap_compare_modes packedSrc 0 1 [12] [8] (by omega) rfl rfl rfl).1 rfl

end OverlapUtil
